import Mathlib

/-!
Shallow embedding of the `nodepp` HTTP server core (Request parsing,
Response building, route table dispatch, worker-pool queue) together with
proofs checking the natural-language specification against it.

C++ `std::string` values are modelled as `List Char`; the standard-library
behaviours the code relies on (`std::getline`, `operator>>` tokenisation,
`std::string::find`, `substr`, `std::stoi`, `std::unordered_map` insertion
and lookup) are modelled by the explicit functions below.  `std::stoi`
throwing is modelled by `Option`: `none` is a thrown exception.
-/

namespace Nodepp

abbrev Str := List Char

/-- Shorthand turning a Lean string literal into the `List Char` model. -/
def str (s : String) : Str := s.toList

/-- `std::isspace` in the default C locale. -/
def isWspace (ch : Char) : Bool :=
  ch = ' ' || ch = '\t' || ch = '\n' || ch = '\x0b' || ch = '\x0c' || ch = '\r'

/-- Auxiliary splitter: cuts the string at every occurrence of `c`. -/
def splitOnCharAux (c : Char) : Str → Str → List Str
  | [], acc => [acc.reverse]
  | a :: s, acc =>
      if a = c then acc.reverse :: splitOnCharAux c s []
      else splitOnCharAux c s (a :: acc)

/-- All pieces of `s` between occurrences of `c` (including empty pieces). -/
def splitOnChar (c : Char) (s : Str) : List Str := splitOnCharAux c s []

/-- The sequence of strings produced by repeatedly calling
`std::getline(stream, line, c)` until it fails: every piece of the split
except a final empty piece (getline fails at end-of-stream without
producing a final empty line). -/
def getlineSplit (c : Char) (s : Str) : List Str :=
  let ps := splitOnChar c s
  if ps.getLast? = some [] then ps.dropLast else ps

/-- Auxiliary splitter on a predicate, used to model `operator>>`. -/
def splitOnPredAux (p : Char → Bool) : Str → Str → List Str
  | [], acc => [acc.reverse]
  | a :: s, acc =>
      if p a then acc.reverse :: splitOnPredAux p s []
      else splitOnPredAux p s (a :: acc)

/-- The whitespace-separated tokens of `s`: repeated `stream >> word`
extraction (skip whitespace, read a maximal non-whitespace run). -/
def tokenize (s : Str) : List Str :=
  (splitOnPredAux isWspace s []).filter (fun t => t ≠ [])

/-- `Request::trim`: strips leading and trailing `' '` characters
(exactly `find_first_not_of(' ')` / `find_last_not_of(' ')` + `substr`). -/
def trim (s : Str) : Str :=
  ((s.dropWhile (fun ch => ch = ' ')).reverse.dropWhile (fun ch => ch = ' ')).reverse

/-- Index of the first character satisfying `p`, if any. -/
def findIdxP (p : Char → Bool) : Str → Option Nat
  | [] => none
  | a :: s => if p a then some 0 else (findIdxP p s).map (· + 1)

/-- `std::string::find(ch, start)`: absolute index of the first occurrence
at or after `start`. -/
def findFrom (p : Char → Bool) (s : Str) (start : Nat) : Option Nat :=
  (findIdxP p (s.drop start)).map (· + start)

/-- Boolean prefix test. -/
def isPrefixL : Str → Str → Bool
  | [], _ => true
  | _ :: _, [] => false
  | a :: s, b :: t => a = b && isPrefixL s t

/-- `std::string::find(pat)`: index of the first occurrence of the
substring `pat`, if any. -/
def findSub (pat : Str) : Str → Option Nat
  | [] => if pat = [] then some 0 else none
  | a :: s => if isPrefixL pat (a :: s) then some 0 else (findSub pat s).map (· + 1)

/-- `std::string::substr(pos, count)` (with `count` clamped to the end of
the string, as in C++). -/
def slice (s : Str) (pos count : Nat) : Str := (s.drop pos).take count

/-- Numeric value of a digit string, most significant digit first. -/
def digitsVal (ds : Str) : Nat :=
  ds.foldl (fun acc ch => acc * 10 + (ch.toNat - '0'.toNat)) 0

/-- `std::stoi`: skip leading whitespace, optional sign, then a maximal
digit run; `none` models the `std::invalid_argument` thrown when no digit
is found and the `std::out_of_range` thrown when the value does not fit in
a 32-bit `int`. -/
def stoi (s : Str) : Option Int :=
  let t := s.dropWhile isWspace
  let neg : Bool := t.headD ' ' = '-'
  let u : Str := if t.headD ' ' = '-' || t.headD ' ' = '+' then t.tail else t
  let ds := u.takeWhile Char.isDigit
  if ds = [] then none
  else
    let v : Int := (if neg then -1 else 1) * (digitsVal ds : Int)
    if v < -2147483648 || 2147483647 < v then none else some v

/-- `std::unordered_map<std::string,·>::find`: value stored under `k`. -/
def mapLookup (m : List (Str × α)) (k : Str) : Option α :=
  (m.find? (fun e => e.1 = k)).map (·.2)

/-- `map[k] = v` on `std::unordered_map`: overwrite the entry for `k` when
present, otherwise add a new entry.  (Iteration order of an
`unordered_map` is unspecified; the list order here is one valid order.) -/
def mapInsert (k : Str) (v : α) : List (Str × α) → List (Str × α)
  | [] => [(k, v)]
  | e :: m => if e.1 = k then (k, v) :: m else e :: mapInsert k v m

/-! ## Request (`ReqRes.h` / `ReqRes.cpp`) -/

/-- The `Request` class: fields as declared in `ReqRes.h`. -/
structure Request where
  method : Str := []
  url : Str := []
  protocol : Str := []
  host : Str := []
  port : Int := 0
  path : Str := []
  body : Str := []
  headers : List (Str × Str) := []
  query : List (Str × Str) := []

/-- `Request::extractUrlComponents`: scheme / host / port detection.
Returns `none` when the `std::stoi` call on the text after a `:` that
precedes the first `/` throws (propagating the exception). -/
def extractUrlComponents (url : Str) : Option (Str × Str × Int) :=
  let dfltProto : Str := if isPrefixL (str "https://") url then str "HTTPS" else str "HTTP"
  let dfltPort : Int := if isPrefixL (str "https://") url then 443 else 80
  let protocolEnd : Option Nat := findSub (str "://") url
  let hostStart : Nat := match protocolEnd with | some i => i + 3 | none => 0
  let portStart : Option Nat := findFrom (fun ch => ch = ':') url hostStart
  let pathStart : Option Nat := findFrom (fun ch => ch = '/') url hostStart
  match portStart, pathStart with
  | some ps, none =>
      match stoi (slice url (ps + 1) url.length) with
      | some n => some (dfltProto, slice url hostStart (ps - hostStart), n)
      | none => none
  | some ps, some q =>
      if ps < q then
        match stoi (slice url (ps + 1) (q - ps - 1)) with
        | some n => some (dfltProto, slice url hostStart (ps - hostStart), n)
        | none => none
      else some (dfltProto, slice url hostStart (q - hostStart), dfltPort)
  | none, some q => some (dfltProto, slice url hostStart (q - hostStart), dfltPort)
  | none, none => some (dfltProto, url.drop hostStart, dfltPort)

/-- `Request::parseQueryParams`: split the query string on `&`, each pair
on its first `=`, trim both sides, last pair for a key wins. -/
def parseQueryParams (qs : Str) : List (Str × Str) :=
  (getlineSplit '&' qs).foldl
    (fun m pair =>
      match findIdxP (fun ch => ch = '=') pair with
      | some i => mapInsert (trim (pair.take i)) (trim (pair.drop (i + 1))) m
      | none => m)
    []

/-- The `?`-split step of `Request::parseRequest`: path before the first
`?`, query mapping parsed from the text after it; no `?` means the whole
URL is the path and the query mapping stays empty. -/
def splitPathQuery (url : Str) : Str × List (Str × Str) :=
  match findIdxP (fun ch => ch = '?') url with
  | some i => (url.take i, parseQueryParams (url.drop (i + 1)))
  | none => (url, [])

/-- The header-line loop of `Request::parseRequest`: each line with a `:`
contributes a trimmed key/value pair (last write wins), a line without
`:` is skipped. -/
def parseHeadersFrom (m : List (Str × Str)) : List Str → List (Str × Str)
  | [] => m
  | l :: ls =>
      match findIdxP (fun ch => ch = ':') l with
      | some i => parseHeadersFrom (mapInsert (trim (l.take i)) (trim (l.drop (i + 1))) m) ls
      | none => parseHeadersFrom m ls

/-- The body loop of `Request::parseRequest`: append each remaining line
plus `'\n'`, then `pop_back()` the final `'\n'` if the body is nonempty. -/
def buildBody (ls : List Str) : Str :=
  (ls.foldl (fun acc l => acc ++ l ++ ['\n']) []).dropLast

/-- Second whitespace token of the first line: the target URL read by
`requestLineStream >> method >> url`. -/
def urlToken (input : Str) : Str :=
  ((tokenize ((getlineSplit '\n' input).headD [])).get? 1).getD []

/-- `Request::parseRequest` (the `Request` constructor).  `none` models
the exception escaping from `std::stoi` inside `extractUrlComponents`;
every other malformed input produces a defaulted `Request`. -/
def parseRequest (input : Str) : Option Request :=
  let lines := getlineSplit '\n' input
  let requestLine := lines.headD []
  let toks := tokenize requestLine
  let method := (toks.get? 0).getD []
  let u := (toks.get? 1).getD []
  match extractUrlComponents u with
  | none => none
  | some (protocol, host, port) =>
      let pq := splitPathQuery u
      let rest := lines.tail
      let hdrLines := rest.takeWhile (fun l => l ≠ [])
      let bodyLines := (rest.dropWhile (fun l => l ≠ [])).tail
      some { method := method, url := u, protocol := protocol, host := host,
             port := port, path := pq.1, query := pq.2,
             headers := parseHeadersFrom [] hdrLines,
             body := buildBody bodyLines }

/-- `Request::getHeader`: stored value, or `""` when the key is absent. -/
def Request.getHeader (r : Request) (k : Str) : Str :=
  (mapLookup r.headers k).getD []

/-- `Request::queryParam`: stored value, or `""` when the key is absent. -/
def Request.queryParam (r : Request) (k : Str) : Str :=
  (mapLookup r.query k).getD []

/-! ## Response (`ReqRes.h` / `ReqRes.cpp`) -/

/-- The `Response` class: `Response()` sets `statusCode` to 200, body and
headers empty. -/
structure Response where
  statusCode : Int := 200
  body : Str := []
  headers : List (Str × Str) := []

/-- `Response::status`. -/
def Response.status (r : Response) (code : Int) : Response :=
  { r with statusCode := code }

/-- `Response::setHeader`. -/
def Response.setHeader (r : Response) (k v : Str) : Response :=
  { r with headers := mapInsert k v r.headers }

/-- `Response::send`: set the body, then `Content-Length` (decimal byte
length of the body), then `Content-Type: text/plain`. -/
def Response.send (r : Response) (b : Str) : Response :=
  (({ r with body := b }).setHeader (str "Content-Length") (Nat.toDigits 10 b.length)).setHeader
    (str "Content-Type") (str "text/plain")

/-- `Response::json`: like `send` but `Content-Type: application/json`. -/
def Response.json (r : Response) (b : Str) : Response :=
  (({ r with body := b }).setHeader (str "Content-Length") (Nat.toDigits 10 b.length)).setHeader
    (str "Content-Type") (str "application/json")

/-- `Response::readFile`, with the file system as an explicit parameter:
the file's contents when it can be opened, the literal `"File not found"`
otherwise. -/
def readFile (fs : Str → Option Str) (filePath : Str) : Str :=
  match fs filePath with
  | some contents => contents
  | none => str "File not found"

/-- `Response::sendFile`: body from `readFile`, then
`Content-Type: text/html`, then `Content-Length`. -/
def Response.sendFile (r : Response) (fs : Str → Option Str) (filePath : Str) : Response :=
  let r₁ : Response := { r with body := readFile fs filePath }
  (r₁.setHeader (str "Content-Type") (str "text/html")).setHeader
    (str "Content-Length") (Nat.toDigits 10 r₁.body.length)

/-- `Response::getStatusMessage`. -/
def getStatusMessage (code : Int) : Str :=
  if code = 200 then str "OK"
  else if code = 400 then str "Bad Request"
  else if code = 404 then str "Not Found"
  else if code = 500 then str "Internal Server Error"
  else str "Unknown Status"

/-- Decimal rendering of the status code by `operator<<(ostream, int)`. -/
def intToStr (i : Int) : Str :=
  if i < 0 then '-' :: Nat.toDigits 10 i.natAbs else Nat.toDigits 10 i.natAbs

/-- One serialized header line `Key: Value\r\n`. -/
def headerLine (e : Str × Str) : Str :=
  e.1 ++ str ": " ++ e.2 ++ str "\r\n"

/-- `Response::toHttpResponse`: status line, the header loop, a blank
line, then the body verbatim. -/
def Response.toHttpResponse (r : Response) : Str :=
  str "HTTP/1.1 " ++ intToStr r.statusCode ++ [' '] ++ getStatusMessage r.statusCode ++ str "\r\n"
    ++ r.headers.foldl (fun acc e => acc ++ headerLine e) []
    ++ str "\r\n" ++ r.body

/-! ## Route table and dispatch (`App.h` / `App.cpp`) -/

/-- `App::RouteHandler` (`std::function<void(const Request&, Response&)>`):
modelled as the function from the request and the incoming response state
to the outgoing response state. -/
def RouteHandler := Request → Response → Response

/-- `App::get`: `routes[path] = handler` under the routes lock. -/
def appGet (routes : List (Str × RouteHandler)) (path : Str) (handler : RouteHandler) :
    List (Str × RouteHandler) :=
  mapInsert path handler routes

/-- `App::post`: identical to `App::get` — the method plays no role. -/
def appPost (routes : List (Str × RouteHandler)) (path : Str) (handler : RouteHandler) :
    List (Str × RouteHandler) :=
  mapInsert path handler routes

/-- The `Response` as initialised by `App::handleRequest` before any
handler runs: `Response res; res.statusCode = 404;`. -/
def initResponse : Response := { statusCode := 404 }

/-- The empty-body fallback at the end of `App::handleRequest`:
`if (res.body.empty()) res.status(404).send("Not Found");`. -/
def finalize (res : Response) : Response :=
  if res.body = [] then (res.status 404).send (str "Not Found") else res

/-- The dispatch core of `App::handleRequest` (after the socket read and
`Request` construction): route lookup, handler invocation on the
404-initialised response, then the empty-body fallback. -/
def handleRequest (routes : List (Str × RouteHandler)) (req : Request) : Response :=
  let res :=
    match mapLookup routes req.path with
    | some h => h req initResponse
    | none => initResponse
  finalize res

/-! ## Worker pool (`ThreadPool.h`) -/

/-- The `ThreadPool` queue/flag state (`tasks` and `stop`); the worker
threads and synchronisation primitives are not modelled. -/
structure ThreadPoolSt (τ : Type) where
  tasks : List τ
  stop : Bool

/-- `ThreadPool::enqueue` (ThreadPool.h): takes the queue lock,
unconditionally `tasks.emplace`s the task, and notifies one worker.
There is no check of `stop` and no failure path. -/
def tpEnqueue (pool : ThreadPoolSt τ) (t : τ) : ThreadPoolSt τ :=
  { pool with tasks := pool.tasks ++ [t] }

/-- Modelled from the spec: the shutdown path of the pool
(`ThreadPool::~ThreadPool`, whose definition in `ThreadPool.cpp` is not
among the provided sources) "sets stop flag, wakes all workers, waits for
the currently-queued tasks to finish, then joins all threads"; its effect
on the modelled state is setting the stop flag. -/
def tpShutdown (pool : ThreadPoolSt τ) : ThreadPoolSt τ :=
  { pool with stop := true }

/-! ## Map lemmas -/

theorem mapLookup_nil (q : Str) : mapLookup ([] : List (Str × α)) q = none := rfl

theorem mapLookup_cons (e : Str × α) (m : List (Str × α)) (q : Str) :
    mapLookup (e :: m) q = if e.1 = q then some e.2 else mapLookup m q := by
  by_cases h : e.1 = q <;> simp [mapLookup, List.find?_cons, h]

theorem mapLookup_insert (k q : Str) (v : α) (m : List (Str × α)) :
    mapLookup (mapInsert k v m) q = if q = k then some v else mapLookup m q := by
  induction m with
  | nil =>
    by_cases h : q = k
    · subst h
      simp [mapInsert, mapLookup_cons]
    · have h' : ¬ k = q := fun hkq => h hkq.symm
      simp [mapInsert, mapLookup_cons, mapLookup_nil, h, h']
  | cons e m ih =>
    simp only [mapInsert]
    by_cases he : e.1 = k
    · rw [if_pos he]
      by_cases hq : q = k
      · subst hq
        rw [mapLookup_cons, if_pos rfl, if_pos rfl]
      · rw [mapLookup_cons, if_neg (fun h' => hq h'.symm), if_neg hq,
          mapLookup_cons, if_neg (fun h' => hq (he ▸ h').symm)]
    · rw [if_neg he]
      by_cases hq : e.1 = q
      · have hqk : ¬ q = k := fun h => he (hq.trans h)
        rw [mapLookup_cons, if_pos hq, if_neg hqk, mapLookup_cons, if_pos hq]
      · rw [mapLookup_cons, if_neg hq, ih]
        by_cases h : q = k
        · rw [if_pos h, if_pos h]
        · rw [if_neg h, if_neg h, mapLookup_cons, if_neg hq]

theorem countP_insert (k : Str) (v : α) (p : Str) (m : List (Str × α)) :
    (mapInsert k v m).countP (fun e => e.1 = p)
      = m.countP (fun e => e.1 = p)
        + (if (mapLookup m k).isNone then if k = p then 1 else 0 else 0) := by
  induction m with
  | nil => by_cases h : k = p <;> simp [mapInsert, mapLookup_nil, h]
  | cons e m ih =>
    simp only [mapInsert]
    by_cases he : e.1 = k
    · rw [if_pos he]
      simp [List.countP_cons, mapLookup_cons, he]
    · rw [if_neg he]
      simp only [List.countP_cons, ih, mapLookup_cons, if_neg he]
      cases hl : mapLookup m k <;> by_cases hp : k = p <;>
        (simp [hl, hp]; try omega)

/-! ## Search / split lemmas -/

theorem findIdxP_nil (p : Char → Bool) : findIdxP p [] = none := rfl

theorem findIdxP_cons (p : Char → Bool) (a : Char) (s : Str) :
    findIdxP p (a :: s) = if p a then some 0 else (findIdxP p s).map (· + 1) := rfl

theorem findIdxP_eq_none (p : Char → Bool) (s : Str) (h : ∀ c ∈ s, p c = false) :
    findIdxP p s = none := by
  induction s with
  | nil => rfl
  | cons a s ih =>
    rw [findIdxP_cons, if_neg (by simp [h a (by simp)]),
      ih (fun c hc => h c (by simp [hc]))]
    rfl

theorem findIdxP_append_of_none (p : Char → Bool) (l₁ l₂ : Str)
    (h : ∀ c ∈ l₁, p c = false) :
    findIdxP p (l₁ ++ l₂) = (findIdxP p l₂).map (· + l₁.length) := by
  induction l₁ with
  | nil => simp
  | cons a l ih =>
    rw [List.cons_append, findIdxP_cons, if_neg (by simp [h a (by simp)]),
      ih (fun c hc => h c (by simp [hc])), Option.map_map]
    cases findIdxP p l₂ with
    | none => rfl
    | some j =>
      simp only [Option.map_some', Function.comp_apply, List.length_cons]
      congr 1

theorem takeWhile_all (p : Char → Bool) (l : Str) (h : ∀ c ∈ l, p c = true) :
    l.takeWhile p = l := by
  induction l with
  | nil => rfl
  | cons a l ih =>
    rw [List.takeWhile_cons, if_pos (h a (by simp)), ih (fun c hc => h c (by simp [hc]))]

theorem isPrefixL_mem (pat s : Str) (h : isPrefixL pat s = true) :
    ∀ c ∈ pat, c ∈ s := by
  induction pat generalizing s with
  | nil => simp
  | cons a pat ih =>
    cases s with
    | nil => simp [isPrefixL] at h
    | cons b t =>
      rw [isPrefixL, Bool.and_eq_true, decide_eq_true_eq] at h
      intro c hc
      rcases List.mem_cons.1 hc with rfl | hc
      · simp [h.1]
      · exact List.mem_cons.2 (Or.inr (ih t h.2 c hc))

theorem findSub_isPrefixL (pat s : Str) (i : Nat) (h : findSub pat s = some i) :
    isPrefixL pat (s.drop i) = true := by
  induction s generalizing i with
  | nil =>
    rw [findSub] at h
    by_cases hp : pat = []
    · subst hp; simp [isPrefixL]
    · simp [hp] at h
  | cons a s ih =>
    rw [findSub] at h
    by_cases hp : isPrefixL pat (a :: s) = true
    · rw [if_pos hp] at h
      cases h
      exact hp
    · rw [if_neg hp] at h
      cases hj : findSub pat s with
      | none => rw [hj] at h; cases h
      | some j =>
        rw [hj] at h
        cases h
        simpa using ih j hj

theorem findSub_eq_none_of_not_mem (pat s : Str) (c : Char)
    (hc : c ∈ pat) (hs : c ∉ s) : findSub pat s = none := by
  cases h : findSub pat s with
  | none => rfl
  | some i =>
    exact absurd (List.mem_of_mem_drop (isPrefixL_mem pat _ (findSub_isPrefixL pat s i h) c hc)) hs

theorem isPrefixL_eq_false_of_not_mem (pat s : Str) (c : Char)
    (hc : c ∈ pat) (hs : c ∉ s) : isPrefixL pat s = false := by
  cases h : isPrefixL pat s with
  | false => rfl
  | true => exact absurd (isPrefixL_mem pat s h c hc) hs

/-! ## Response helper lemmas -/

theorem send_body (r : Response) (b : Str) : (r.send b).body = b := rfl

theorem send_statusCode (r : Response) (b : Str) :
    (r.send b).statusCode = r.statusCode := rfl

/-- Concatenation of the serialized header lines, one per map entry. -/
def headerLinesJoined : List (Str × Str) → Str
  | [] => []
  | e :: hs => headerLine e ++ headerLinesJoined hs

theorem foldl_headerLine (hs : List (Str × Str)) (acc : Str) :
    hs.foldl (fun acc e => acc ++ headerLine e) acc = acc ++ headerLinesJoined hs := by
  induction hs generalizing acc with
  | nil => simp [headerLinesJoined]
  | cons e hs ih => simp [headerLinesJoined, ih, List.append_assoc]

theorem foldl_bodyLine (ls : List Str) (acc : Str) :
    ls.foldl (fun acc l => acc ++ l ++ ['\n']) acc
      = acc ++ (ls.map (fun l => l ++ ['\n'])).flatten := by
  induction ls generalizing acc with
  | nil => simp
  | cons l ls ih =>
    rw [List.foldl_cons, ih, List.map_cons, List.flatten_cons]
    simp [List.append_assoc]

/-- The response built by `status(400).setHeader("X","y").send("hi")`. -/
def sampleResponse : Response :=
  ((({} : Response).status 400).setHeader (str "X") (str "y")).send (str "hi")

/-! ## Claim theorems -/

/-- C1: evaluation of the code at the failing input.  After shutdown has
set the stop flag, `ThreadPool::enqueue` does not fail with a
`PoolStopped` error: it silently appends the task to the queue (the
`enqueue` in `ThreadPool.h` never consults `stop` and has no failure
path), contradicting the claimed contract. -/
theorem enqueue_after_shutdown_silently_appends :
    tpEnqueue (tpShutdown ({ tasks := [], stop := false } : ThreadPoolSt Nat)) 7
      = { tasks := [7], stop := true } := rfl

/-- C2: evaluation of the code at the failing input.  Parsing the request
`GET a: HTTP/1.1` — whose URL token `a:` has a colon followed by empty
text before any slash — reaches `std::stoi("")` inside
`Request::extractUrlComponents`, which throws; the `Request` constructor
does raise (`none` models the exception), refuting "never raises". -/
theorem parse_colon_url_raises :
    parseRequest (str "GET a: HTTP/1.1") = none := rfl

/-- C3: `App::handleRequest` initialises the `Response` with status 404
and empty body before any handler runs; when the path is unregistered, or
when the invoked handler leaves the body empty, the dispatched response
has status 404 and body `"Not Found"`. -/
theorem dispatch_default_404 (routes : List (Str × RouteHandler)) (req : Request) :
    initResponse.statusCode = 404 ∧ initResponse.body = [] ∧
    (mapLookup routes req.path = none →
      (handleRequest routes req).statusCode = 404 ∧
      (handleRequest routes req).body = str "Not Found") ∧
    (∀ h : RouteHandler, mapLookup routes req.path = some h →
      (h req initResponse).body = [] →
      (handleRequest routes req).statusCode = 404 ∧
      (handleRequest routes req).body = str "Not Found") := by
  refine ⟨rfl, rfl, ?_, ?_⟩
  · intro hnone
    have hr : handleRequest routes req = finalize initResponse := by
      unfold handleRequest
      rw [hnone]
    rw [hr]
    exact ⟨rfl, rfl⟩
  · intro h hsome hbody
    have hr : handleRequest routes req = finalize (h req initResponse) := by
      unfold handleRequest
      rw [hsome]
    rw [hr]
    unfold finalize
    rw [if_pos hbody]
    exact ⟨rfl, rfl⟩

/-- C3 witness: dispatching any request against an empty route table
yields status 404, body `"Not Found"`. -/
theorem dispatch_default_404_witness :
    (handleRequest [] ({} : Request)).statusCode = 404 ∧
    (handleRequest [] ({} : Request)).body = str "Not Found" :=
  (dispatch_default_404 [] ({} : Request)).2.2.1 rfl

/-- C9: on a file that cannot be opened, `Response::sendFile` sets the
body to exactly `"File not found"`, leaves the status code unchanged,
and sets `Content-Type: text/html` and a matching `Content-Length`. -/
theorem sendFile_missing_file (r : Response) (fs : Str → Option Str) (p : Str)
    (h : fs p = none) :
    (r.sendFile fs p).body = str "File not found" ∧
    (r.sendFile fs p).statusCode = r.statusCode ∧
    mapLookup (r.sendFile fs p).headers (str "Content-Type") = some (str "text/html") ∧
    mapLookup (r.sendFile fs p).headers (str "Content-Length")
      = some (Nat.toDigits 10 (str "File not found").length) := by
  have hrf : readFile fs p = str "File not found" := by
    unfold readFile
    rw [h]
  have hne : ¬ (str "Content-Type" = str "Content-Length") := by decide
  unfold Response.sendFile
  rw [hrf]
  refine ⟨rfl, rfl, ?_, ?_⟩
  · show mapLookup (mapInsert (str "Content-Length") _ (mapInsert (str "Content-Type") _ _))
      (str "Content-Type") = _
    rw [mapLookup_insert, if_neg hne, mapLookup_insert, if_pos rfl]
  · show mapLookup (mapInsert (str "Content-Length") _ (mapInsert (str "Content-Type") _ _))
      (str "Content-Length") = _
    rw [mapLookup_insert, if_pos rfl]

/-- C9 witness: a fresh 200 response after `sendFile` on a missing file
keeps status 200 with body `"File not found"` and the two headers. -/
theorem sendFile_missing_file_witness :
    (({} : Response).sendFile (fun _ => none) (str "index.html")).body = str "File not found" ∧
    (({} : Response).sendFile (fun _ => none) (str "index.html")).statusCode = 200 ∧
    mapLookup (({} : Response).sendFile (fun _ => none) (str "index.html")).headers
      (str "Content-Type") = some (str "text/html") ∧
    mapLookup (({} : Response).sendFile (fun _ => none) (str "index.html")).headers
      (str "Content-Length") = some (Nat.toDigits 10 (str "File not found").length) :=
  sendFile_missing_file ({} : Response) (fun _ => none) (str "index.html") rfl

/-- C10: `Request::getHeader` returns the empty string for any key absent
from the header mapping, and `Request::queryParam` likewise for the query
mapping; both are pure accessors. -/
theorem accessors_default_empty (r : Request) (k : Str) :
    (mapLookup r.headers k = none → r.getHeader k = []) ∧
    (mapLookup r.query k = none → r.queryParam k = []) := by
  constructor <;> intro h <;> simp [Request.getHeader, Request.queryParam, h]

/-- C10 witness: on a defaulted request both accessors return `""`. -/
theorem accessors_default_empty_witness :
    ({} : Request).getHeader (str "Host") = [] ∧
    ({} : Request).queryParam (str "q") = [] :=
  ⟨(accessors_default_empty ({} : Request) (str "Host")).1 rfl,
   (accessors_default_empty ({} : Request) (str "q")).2 rfl⟩

/-- C4: `Response::toHttpResponse` produces the status line
`HTTP/1.1 <code> <reason>` (with the four fixed reason phrases and
`Unknown Status` for every other code), then each header as
`Key: Value` terminated by CRLF, a blank line, then the body verbatim;
and the concrete response `status(400).setHeader("X","y").send("hi")`
serializes with first line starting `HTTP/1.1 400 Bad Request` and
contains the headers `X: y`, `Content-Type: text/plain`,
`Content-Length: 2`. -/
theorem serialization_spec :
    (∀ r : Response,
       r.toHttpResponse
         = str "HTTP/1.1 " ++ intToStr r.statusCode ++ [' ']
             ++ getStatusMessage r.statusCode ++ str "\r\n"
             ++ headerLinesJoined r.headers
             ++ str "\r\n" ++ r.body) ∧
    getStatusMessage 200 = str "OK" ∧
    getStatusMessage 400 = str "Bad Request" ∧
    getStatusMessage 404 = str "Not Found" ∧
    getStatusMessage 500 = str "Internal Server Error" ∧
    (∀ c : Int, ¬ c = 200 → ¬ c = 400 → ¬ c = 404 → ¬ c = 500 →
       getStatusMessage c = str "Unknown Status") ∧
    isPrefixL (str "HTTP/1.1 400 Bad Request") sampleResponse.toHttpResponse = true ∧
    (findSub (str "X: y\r\n") sampleResponse.toHttpResponse).isSome = true ∧
    (findSub (str "Content-Type: text/plain\r\n") sampleResponse.toHttpResponse).isSome = true ∧
    (findSub (str "Content-Length: 2\r\n") sampleResponse.toHttpResponse).isSome = true := by
  refine ⟨?_, rfl, rfl, rfl, rfl, ?_, rfl, rfl, rfl, rfl⟩
  · intro r
    unfold Response.toHttpResponse
    rw [foldl_headerLine, List.nil_append]
  · intro c h200 h400 h404 h500
    unfold getStatusMessage
    rw [if_neg h200, if_neg h400, if_neg h404, if_neg h500]

/-- C4 witness: the catch-all reason phrase at the concrete code 201. -/
theorem serialization_spec_witness :
    getStatusMessage 201 = str "Unknown Status" :=
  serialization_spec.2.2.2.2.2.1 201 (by decide) (by decide) (by decide) (by decide)

/-- C6: the query split of `Request::parseRequest` /
`Request::parseQueryParams`: the particular URL `/search?q=test&x= y `
yields path `/search`, `query["q"] == "test"` and `query["x"] == "y"`
(both trimmed); any URL without `?` yields the whole URL as path and an
empty query mapping; insertion overwrites, so the last pair for a key
wins; a pair splits on its first `=`. -/
theorem query_parsing_spec :
    (splitPathQuery (str "/search?q=test&x= y ")).1 = str "/search" ∧
    mapLookup (splitPathQuery (str "/search?q=test&x= y ")).2 (str "q")
      = some (str "test") ∧
    mapLookup (splitPathQuery (str "/search?q=test&x= y ")).2 (str "x")
      = some (str "y") ∧
    (∀ url : Str, '?' ∉ url → splitPathQuery url = (url, [])) ∧
    (∀ (k v : Str) (m : List (Str × Str)), mapLookup (mapInsert k v m) k = some v) ∧
    mapLookup (parseQueryParams (str "a=1&a=2")) (str "a") = some (str "2") ∧
    mapLookup (parseQueryParams (str "k=a=b")) (str "k") = some (str "a=b") := by
  refine ⟨rfl, rfl, rfl, ?_, ?_, rfl, rfl⟩
  · intro url h
    unfold splitPathQuery
    rw [findIdxP_eq_none _ _ (fun c hc => by
      simp only [decide_eq_false_iff_not]
      exact fun hco => h (hco ▸ hc))]
  · intro k v m
    rw [mapLookup_insert, if_pos rfl]

/-- C6 witness: a URL without `?` keeps its full text as path with empty
query, and inserting a duplicate key overwrites the stored value. -/
theorem query_parsing_spec_witness :
    splitPathQuery (str "/plain") = (str "/plain", []) ∧
    mapLookup (mapInsert (str "a") (str "2") [(str "a", str "1")]) (str "a")
      = some (str "2") :=
  ⟨query_parsing_spec.2.2.2.1 (str "/plain") (by decide),
   query_parsing_spec.2.2.2.2.1 (str "a") (str "2") [(str "a", str "1")]⟩

/-- C7: the header/body phase of `Request::parseRequest`: a line without
`:` is skipped without error; a header line splits on its first `:` with
both sides trimmed; a duplicate header name keeps its last occurrence;
the lines after the blank separator are joined with newlines (each line
gets a `'\n'` appended and the final one is stripped — so a single
trailing newline of the raw body is stripped if present). -/
theorem header_body_parsing_spec :
    (∀ (l : Str) (ls : List Str) (m : List (Str × Str)),
       findIdxP (fun ch => ch = ':') l = none →
       parseHeadersFrom m (l :: ls) = parseHeadersFrom m ls) ∧
    (parseRequest (str "GET / HTTP/1.1\nA: 1\nA: 2\n\nhello")).map
        (fun r => mapLookup r.headers (str "A")) = some (some (str "2")) ∧
    parseHeadersFrom [] [str "  Key  :  v al  "] = [(str "Key", str "v al")] ∧
    (parseRequest (str "GET / HTTP/1.1\nHost: h\nNoColonLine\n\nx")).map
        (fun r => r.headers) = some [(str "Host", str "h")] ∧
    (∀ ls : List Str, buildBody ls = ((ls.map (fun l => l ++ ['\n'])).flatten).dropLast) ∧
    (parseRequest (str "GET / HTTP/1.1\n\nline1\nline2\n")).map Request.body
      = some (str "line1\nline2") ∧
    (parseRequest (str "GET / HTTP/1.1\n\nline1\nline2")).map Request.body
      = some (str "line1\nline2") := by
  refine ⟨?_, rfl, rfl, rfl, ?_, rfl, rfl⟩
  · intro l ls m h
    simp only [parseHeadersFrom]
    rw [h]
  · intro ls
    unfold buildBody
    rw [foldl_bodyLine, List.nil_append]

/-- C7 witness: a colon-free line contributes nothing to the header
mapping. -/
theorem header_body_parsing_spec_witness :
    parseHeadersFrom [] [str "NoColonLine"] = parseHeadersFrom [] [] :=
  header_body_parsing_spec.1 (str "NoColonLine") [] [] (by decide)

/-! ## Registration sequences (for the route-table claim) -/

/-- The two registration entry points, `App::get` and `App::post`. -/
inductive HttpMethod
  | GET
  | POST

/-- One registration call: which entry point, the path, the handler. -/
structure Registration where
  httpMethod : HttpMethod
  path : Str
  handler : RouteHandler

/-- Apply one registration to a route table through the entry point the
caller used. -/
def applyReg (routes : List (Str × RouteHandler)) (r : Registration) :
    List (Str × RouteHandler) :=
  match r.httpMethod with
  | .GET => appGet routes r.path r.handler
  | .POST => appPost routes r.path r.handler

/-- The route table after a sequence of `get`/`post` calls, oldest
first, starting from the empty table. -/
def applyRegs (regs : List Registration) : List (Str × RouteHandler) :=
  regs.foldl applyReg []

/-- Reference definition following the spec's words: the handler of the
most recent registration for the path, the HTTP method playing no role. -/
def specLastRegistered (regs : List Registration) (p : Str) : Option RouteHandler :=
  (regs.reverse.find? (fun r => r.path = p)).map (·.handler)

theorem applyReg_eq_insert (routes : List (Str × RouteHandler)) (r : Registration) :
    applyReg routes r = mapInsert r.path r.handler routes := by
  cases r with
  | mk m p h => cases m <;> rfl

theorem applyRegs_append_one (regs : List Registration) (r : Registration) :
    applyRegs (regs ++ [r]) = applyReg (applyRegs regs) r := by
  simp [applyRegs, List.foldl_append]

theorem specLastRegistered_append_one (regs : List Registration) (r : Registration)
    (p : Str) :
    specLastRegistered (regs ++ [r]) p
      = if r.path = p then some r.handler else specLastRegistered regs p := by
  unfold specLastRegistered
  rw [List.reverse_append]
  by_cases h : r.path = p <;> simp [List.find?_cons, h]

theorem applyRegs_lookup (regs : List Registration) (p : Str) :
    mapLookup (applyRegs regs) p = specLastRegistered regs p := by
  induction regs using List.reverseRecOn with
  | nil => rfl
  | append_singleton regs r ih =>
    rw [applyRegs_append_one, applyReg_eq_insert, mapLookup_insert,
      specLastRegistered_append_one]
    by_cases h : r.path = p
    · rw [if_pos h, if_pos h.symm]
    · rw [if_neg h, if_neg (fun h' => h h'.symm), ih]

theorem applyRegs_count (regs : List Registration) (p : Str) :
    (applyRegs regs).countP (fun e => e.1 = p)
      = if (specLastRegistered regs p).isSome then 1 else 0 := by
  induction regs using List.reverseRecOn with
  | nil => rfl
  | append_singleton regs r ih =>
    rw [applyRegs_append_one, applyReg_eq_insert, countP_insert, ih,
      applyRegs_lookup, specLastRegistered_append_one]
    by_cases h : r.path = p
    · subst h
      rw [if_pos rfl]
      cases hs : specLastRegistered regs r.path <;> simp [hs]
    · rw [if_neg h, if_neg h]
      simp

/-- C5: after any sequence of `App::get`/`App::post` registrations the
route table holds, for each path `p`, exactly the handler of the most
recent registration for `p` (one entry when registered, none otherwise),
the HTTP method playing no role; dispatching a request whose path has a
registration invokes that most recently registered handler. -/
theorem route_last_registration_wins (regs : List Registration) (p : Str) :
    mapLookup (applyRegs regs) p = specLastRegistered regs p ∧
    (applyRegs regs).countP (fun e => e.1 = p)
      = (if (specLastRegistered regs p).isSome then 1 else 0) ∧
    (∀ (req : Request) (h : RouteHandler),
       specLastRegistered regs req.path = some h →
       handleRequest (applyRegs regs) req = finalize (h req initResponse)) := by
  refine ⟨applyRegs_lookup regs p, applyRegs_count regs p, ?_⟩
  intro req h hspec
  unfold handleRequest
  rw [applyRegs_lookup, hspec]

/-- C5 witness: registering `/a` twice (once via `get`, once via `post`)
dispatches to the second handler. -/
theorem route_last_registration_wins_witness :
    handleRequest
        (applyRegs
          [⟨HttpMethod.GET, str "/a", fun _ res => res.send (str "one")⟩,
           ⟨HttpMethod.POST, str "/a", fun _ res => res.send (str "two")⟩])
        ({ path := str "/a" } : Request)
      = finalize ((fun _ res => res.send (str "two") : RouteHandler)
          ({ path := str "/a" } : Request) initResponse) :=
  (route_last_registration_wins
      [⟨HttpMethod.GET, str "/a", fun _ res => res.send (str "one")⟩,
       ⟨HttpMethod.POST, str "/a", fun _ res => res.send (str "two")⟩]
      (str "/a")).2.2 ({ path := str "/a" } : Request) _ rfl

/-! ## URL component lemmas (for C8) -/

theorem pred_false_of_not_mem (c : Char) (h : Str) (hc : c ∉ h) :
    ∀ x ∈ h, (fun ch => decide (ch = c)) x = false := by
  intro x hx
  simp only [decide_eq_false_iff_not]
  exact fun heq => hc (heq ▸ hx)

theorem extract_https_host (h rest : Str) (hc : ':' ∉ h) (hs : '/' ∉ h) :
    extractUrlComponents (str "https://" ++ h ++ '/' :: rest)
      = some (str "HTTPS", h, 443) := by
  show extractUrlComponents
      ('h' :: 't' :: 't' :: 'p' :: 's' :: ':' :: '/' :: '/' :: (h ++ '/' :: rest))
    = some (str "HTTPS", h, 443)
  have e1 : isPrefixL (str "https://")
      ('h' :: 't' :: 't' :: 'p' :: 's' :: ':' :: '/' :: '/' :: (h ++ '/' :: rest)) = true := rfl
  have e2 : findSub (str "://")
      ('h' :: 't' :: 't' :: 'p' :: 's' :: ':' :: '/' :: '/' :: (h ++ '/' :: rest)) = some 5 := rfl
  have e3 : List.drop 8 ('h' :: 't' :: 't' :: 'p' :: 's' :: ':' :: '/' :: '/' :: (h ++ '/' :: rest))
      = h ++ '/' :: rest := rfl
  have e5 : findFrom (fun ch => ch = '/')
      ('h' :: 't' :: 't' :: 'p' :: 's' :: ':' :: '/' :: '/' :: (h ++ '/' :: rest)) 8
      = some (0 + h.length + 8) := by
    unfold findFrom
    rw [e3, findIdxP_append_of_none _ _ _ (pred_false_of_not_mem '/' h hs),
      findIdxP_cons, if_pos (by decide)]
    rfl
  have hslice : slice ('h' :: 't' :: 't' :: 'p' :: 's' :: ':' :: '/' :: '/' :: (h ++ '/' :: rest))
      8 (0 + h.length + 8 - 8) = h := by
    unfold slice
    rw [e3, show 0 + h.length + 8 - 8 = h.length by omega, List.take_left]
  cases hfr : findIdxP (fun ch => ch = ':') rest with
  | none =>
    have e4 : findFrom (fun ch => ch = ':')
        ('h' :: 't' :: 't' :: 'p' :: 's' :: ':' :: '/' :: '/' :: (h ++ '/' :: rest)) 8 = none := by
      unfold findFrom
      rw [e3, findIdxP_append_of_none _ _ _ (pred_false_of_not_mem ':' h hc),
        findIdxP_cons, if_neg (by decide), hfr]
      rfl
    simp only [extractUrlComponents, e1, e2, e4, e5, hslice, if_true]
  | some j =>
    have e4 : findFrom (fun ch => ch = ':')
        ('h' :: 't' :: 't' :: 'p' :: 's' :: ':' :: '/' :: '/' :: (h ++ '/' :: rest)) 8
        = some (j + 1 + h.length + 8) := by
      unfold findFrom
      rw [e3, findIdxP_append_of_none _ _ _ (pred_false_of_not_mem ':' h hc),
        findIdxP_cons, if_neg (by decide), hfr]
      rfl
    simp only [extractUrlComponents, e1, e2, e4, e5, if_true]
    rw [if_neg (by omega), hslice]

theorem digit_not_wspace (c : Char) (h : c.isDigit = true) : isWspace c = false := by
  have h1 : ¬ c = ' ' := fun hc => absurd (hc ▸ h) (by decide)
  have h2 : ¬ c = '\t' := fun hc => absurd (hc ▸ h) (by decide)
  have h3 : ¬ c = '\n' := fun hc => absurd (hc ▸ h) (by decide)
  have h4 : ¬ c = '\x0b' := fun hc => absurd (hc ▸ h) (by decide)
  have h5 : ¬ c = '\x0c' := fun hc => absurd (hc ▸ h) (by decide)
  have h6 : ¬ c = '\r' := fun hc => absurd (hc ▸ h) (by decide)
  simp [isWspace, h1, h2, h3, h4, h5, h6]

theorem stoi_digits (ds : Str) (hne : ds ≠ []) (hds : ∀ c ∈ ds, c.isDigit = true)
    (hrange : (digitsVal ds : Int) ≤ 2147483647) :
    stoi ds = some (digitsVal ds) := by
  obtain ⟨c, cs, rfl⟩ := List.exists_cons_of_ne_nil hne
  have hcd : c.isDigit = true := hds c (by simp)
  have hminus : ¬ c = '-' := fun hc => absurd (hc ▸ hcd) (by decide)
  have hplus : ¬ c = '+' := fun hc => absurd (hc ▸ hcd) (by decide)
  have hw : isWspace c = false := digit_not_wspace c hcd
  have hdw : (c :: cs).dropWhile isWspace = c :: cs := by
    rw [List.dropWhile_cons]
    simp [hw]
  have htw : (c :: cs).takeWhile Char.isDigit = c :: cs := takeWhile_all _ _ hds
  have hnn : (0 : Int) ≤ (digitsVal (c :: cs) : Int) := Int.natCast_nonneg _
  have hsign : (decide (c = '-') || decide (c = '+')) = false := by simp [hminus, hplus]
  have hsign2 : (decide (c = '-')) = false := by simp [hminus]
  unfold stoi
  rw [hdw]
  simp only [List.headD_cons, hminus, hplus, decide_False, Bool.false_or,
    Bool.or_self, Bool.or_false, Bool.false_eq_true, if_false, ite_false, htw]
  have hc1 : ¬ ((decide ((1 : Int) * ↑(digitsVal (c :: cs)) < -2147483648) ||
      decide ((2147483647 : Int) < 1 * ↑(digitsVal (c :: cs)))) = true) := by
    simp only [Bool.or_eq_true, decide_eq_true_eq, not_or, one_mul]
    constructor <;> omega
  rw [if_neg (show ¬ (c :: cs) = [] from by simp), if_neg hc1, one_mul]
  rfl

theorem extract_http_host (h rest : Str) (hc : ':' ∉ h) (hs : '/' ∉ h) :
    extractUrlComponents (str "http://" ++ h ++ '/' :: rest)
      = some (str "HTTP", h, 80) := by
  show extractUrlComponents
      ('h' :: 't' :: 't' :: 'p' :: ':' :: '/' :: '/' :: (h ++ '/' :: rest))
    = some (str "HTTP", h, 80)
  have e1 : isPrefixL (str "https://")
      ('h' :: 't' :: 't' :: 'p' :: ':' :: '/' :: '/' :: (h ++ '/' :: rest)) = false := rfl
  have e2 : findSub (str "://")
      ('h' :: 't' :: 't' :: 'p' :: ':' :: '/' :: '/' :: (h ++ '/' :: rest)) = some 4 := rfl
  have e3 : List.drop 7 ('h' :: 't' :: 't' :: 'p' :: ':' :: '/' :: '/' :: (h ++ '/' :: rest))
      = h ++ '/' :: rest := rfl
  have e5 : findFrom (fun ch => ch = '/')
      ('h' :: 't' :: 't' :: 'p' :: ':' :: '/' :: '/' :: (h ++ '/' :: rest)) 7
      = some (0 + h.length + 7) := by
    unfold findFrom
    rw [e3, findIdxP_append_of_none _ _ _ (pred_false_of_not_mem '/' h hs),
      findIdxP_cons, if_pos (by decide)]
    rfl
  have hslice : slice ('h' :: 't' :: 't' :: 'p' :: ':' :: '/' :: '/' :: (h ++ '/' :: rest))
      7 (0 + h.length + 7 - 7) = h := by
    unfold slice
    rw [e3, show 0 + h.length + 7 - 7 = h.length by omega, List.take_left]
  cases hfr : findIdxP (fun ch => ch = ':') rest with
  | none =>
    have e4 : findFrom (fun ch => ch = ':')
        ('h' :: 't' :: 't' :: 'p' :: ':' :: '/' :: '/' :: (h ++ '/' :: rest)) 7 = none := by
      unfold findFrom
      rw [e3, findIdxP_append_of_none _ _ _ (pred_false_of_not_mem ':' h hc),
        findIdxP_cons, if_neg (by decide), hfr]
      rfl
    simp only [extractUrlComponents, e1, e2, e4, e5, hslice]
    simp
  | some j =>
    have e4 : findFrom (fun ch => ch = ':')
        ('h' :: 't' :: 't' :: 'p' :: ':' :: '/' :: '/' :: (h ++ '/' :: rest)) 7
        = some (j + 1 + h.length + 7) := by
      unfold findFrom
      rw [e3, findIdxP_append_of_none _ _ _ (pred_false_of_not_mem ':' h hc),
        findIdxP_cons, if_neg (by decide), hfr]
      rfl
    simp only [extractUrlComponents, e1, e2, e4, e5]
    rw [if_neg (by omega), hslice]
    simp

theorem extract_no_scheme (h rest : Str) (hc : ':' ∉ h) (hs : '/' ∉ h)
    (hcr : ':' ∉ rest) :
    extractUrlComponents (h ++ '/' :: rest) = some (str "HTTP", h, 80) := by
  have hmem : ':' ∉ h ++ '/' :: rest := by
    intro hm
    rcases List.mem_append.1 hm with hmh | hmr
    · exact hc hmh
    · rcases List.mem_cons.1 hmr with heq | hmr'
      · exact absurd heq (by decide)
      · exact hcr hmr'
  have e1 : isPrefixL (str "https://") (h ++ '/' :: rest) = false :=
    isPrefixL_eq_false_of_not_mem _ _ ':' (by decide) hmem
  have e2 : findSub (str "://") (h ++ '/' :: rest) = none :=
    findSub_eq_none_of_not_mem _ _ ':' (by decide) hmem
  have e4 : findFrom (fun ch => ch = ':') (h ++ '/' :: rest) 0 = none := by
    unfold findFrom
    rw [List.drop_zero, findIdxP_eq_none _ _ (pred_false_of_not_mem ':' _ hmem)]
    rfl
  have e5 : findFrom (fun ch => ch = '/') (h ++ '/' :: rest) 0
      = some (0 + h.length + 0) := by
    unfold findFrom
    rw [List.drop_zero, findIdxP_append_of_none _ _ _ (pred_false_of_not_mem '/' h hs),
      findIdxP_cons, if_pos (by decide)]
    rfl
  have hslice : slice (h ++ '/' :: rest) 0 (0 + h.length + 0 - 0) = h := by
    unfold slice
    rw [List.drop_zero, show 0 + h.length + 0 - 0 = h.length by omega, List.take_left]
  simp only [extractUrlComponents, e1, e2, e4, e5, hslice]
  simp

theorem extract_port_override (h ds rest : Str) (hc : ':' ∉ h) (hs : '/' ∉ h)
    (hne : ds ≠ []) (hds : ∀ c ∈ ds, c.isDigit = true)
    (hrange : (digitsVal ds : Int) ≤ 2147483647) :
    extractUrlComponents (str "http://" ++ h ++ ':' :: (ds ++ '/' :: rest))
      = some (str "HTTP", h, (digitsVal ds : Int)) := by
  have hdsl : ∀ c ∈ ds, (fun ch => decide (ch = '/')) c = false := by
    intro c hm
    simp only [decide_eq_false_iff_not]
    intro heq
    exact absurd (heq ▸ hds c hm) (by decide)
  show extractUrlComponents
      ('h' :: 't' :: 't' :: 'p' :: ':' :: '/' :: '/' :: (h ++ ':' :: (ds ++ '/' :: rest)))
    = some (str "HTTP", h, (digitsVal ds : Int))
  have e1 : isPrefixL (str "https://")
      ('h' :: 't' :: 't' :: 'p' :: ':' :: '/' :: '/' :: (h ++ ':' :: (ds ++ '/' :: rest))) = false := rfl
  have e2 : findSub (str "://")
      ('h' :: 't' :: 't' :: 'p' :: ':' :: '/' :: '/' :: (h ++ ':' :: (ds ++ '/' :: rest))) = some 4 := rfl
  have e3 : List.drop 7 ('h' :: 't' :: 't' :: 'p' :: ':' :: '/' :: '/' :: (h ++ ':' :: (ds ++ '/' :: rest)))
      = h ++ ':' :: (ds ++ '/' :: rest) := rfl
  have e4 : findFrom (fun ch => ch = ':')
      ('h' :: 't' :: 't' :: 'p' :: ':' :: '/' :: '/' :: (h ++ ':' :: (ds ++ '/' :: rest))) 7
      = some (0 + h.length + 7) := by
    unfold findFrom
    rw [e3, findIdxP_append_of_none _ _ _ (pred_false_of_not_mem ':' h hc),
      findIdxP_cons, if_pos (by decide)]
    rfl
  have e5 : findFrom (fun ch => ch = '/')
      ('h' :: 't' :: 't' :: 'p' :: ':' :: '/' :: '/' :: (h ++ ':' :: (ds ++ '/' :: rest))) 7
      = some (0 + ds.length + 1 + h.length + 7) := by
    unfold findFrom
    rw [e3, findIdxP_append_of_none _ _ _ (pred_false_of_not_mem '/' h hs),
      findIdxP_cons, if_neg (by decide), findIdxP_append_of_none _ _ _ hdsl,
      findIdxP_cons, if_pos (by decide)]
    rfl
  have hsliceHost : slice ('h' :: 't' :: 't' :: 'p' :: ':' :: '/' :: '/' :: (h ++ ':' :: (ds ++ '/' :: rest)))
      7 (0 + h.length + 7 - 7) = h := by
    unfold slice
    rw [e3, show 0 + h.length + 7 - 7 = h.length by omega, List.take_left]
  have hdrop : List.drop (h.length + 8)
      ('h' :: 't' :: 't' :: 'p' :: ':' :: '/' :: '/' :: (h ++ ':' :: (ds ++ '/' :: rest)))
      = ds ++ '/' :: rest := by
    have s1 : List.drop (h.length + 8)
        ('h' :: 't' :: 't' :: 'p' :: ':' :: '/' :: '/' :: (h ++ ':' :: (ds ++ '/' :: rest)))
        = List.drop (h.length + 1) (List.drop 7
            ('h' :: 't' :: 't' :: 'p' :: ':' :: '/' :: '/' :: (h ++ ':' :: (ds ++ '/' :: rest)))) := by
      rw [List.drop_drop]
      congr 1
      omega
    have s2 : List.drop (h.length + 1) (h ++ ':' :: (ds ++ '/' :: rest))
        = List.drop 1 (List.drop h.length (h ++ ':' :: (ds ++ '/' :: rest))) := by
      rw [List.drop_drop]
    rw [s1, e3, s2, List.drop_left]
    rfl
  have hsliceDs : slice ('h' :: 't' :: 't' :: 'p' :: ':' :: '/' :: '/' :: (h ++ ':' :: (ds ++ '/' :: rest)))
      (0 + h.length + 7 + 1)
      (0 + ds.length + 1 + h.length + 7 - (0 + h.length + 7) - 1) = ds := by
    unfold slice
    rw [show 0 + h.length + 7 + 1 = h.length + 8 by omega, hdrop,
      show 0 + ds.length + 1 + h.length + 7 - (0 + h.length + 7) - 1 = ds.length by omega,
      List.take_left]
  have hstoi : stoi ds = some (digitsVal ds) := stoi_digits ds hne hds hrange
  simp only [extractUrlComponents, e1, e2, e4, e5]
  rw [if_pos (by omega), hsliceDs, hstoi, hsliceHost]
  simp

/-- C8: `Request::extractUrlComponents`: an `https://` prefix selects
protocol `HTTPS` with default port 443, otherwise protocol is `HTTP` with
default port 80; `host` is the text between the scheme separator (or
position 0) and the first `/` when no colon precedes it; and when a colon
appears before the first slash, the digits after it override the default
port. -/
theorem url_scheme_host_port_spec :
    (∀ h rest : Str, ':' ∉ h → '/' ∉ h →
       extractUrlComponents (str "https://" ++ h ++ '/' :: rest)
         = some (str "HTTPS", h, 443)) ∧
    (∀ h rest : Str, ':' ∉ h → '/' ∉ h →
       extractUrlComponents (str "http://" ++ h ++ '/' :: rest)
         = some (str "HTTP", h, 80)) ∧
    (∀ h rest : Str, ':' ∉ h → '/' ∉ h → ':' ∉ rest →
       extractUrlComponents (h ++ '/' :: rest) = some (str "HTTP", h, 80)) ∧
    (∀ h ds rest : Str, ':' ∉ h → '/' ∉ h → ds ≠ [] →
       (∀ c ∈ ds, c.isDigit = true) → (digitsVal ds : Int) ≤ 2147483647 →
       extractUrlComponents (str "http://" ++ h ++ ':' :: (ds ++ '/' :: rest))
         = some (str "HTTP", h, (digitsVal ds : Int))) :=
  ⟨extract_https_host, extract_http_host, extract_no_scheme, extract_port_override⟩

/-- C8 witness: concrete URLs exercising all four hypotheses. -/
theorem url_scheme_host_port_spec_witness :
    extractUrlComponents (str "https://" ++ str "example.com" ++ '/' :: str "idx")
      = some (str "HTTPS", str "example.com", 443) ∧
    extractUrlComponents (str "example.com" ++ '/' :: str "idx")
      = some (str "HTTP", str "example.com", 80) ∧
    extractUrlComponents
        (str "http://" ++ str "example.com" ++ ':' :: (str "8080" ++ '/' :: str "idx"))
      = some (str "HTTP", str "example.com", 8080) := by
  refine ⟨url_scheme_host_port_spec.1 (str "example.com") (str "idx")
      (by decide) (by decide),
    url_scheme_host_port_spec.2.2.1 (str "example.com") (str "idx")
      (by decide) (by decide) (by decide), ?_⟩
  have h := url_scheme_host_port_spec.2.2.2 (str "example.com") (str "8080")
    (str "idx") (by decide) (by decide) (by decide) (by decide) (by decide)
  rw [h]
  rfl

end Nodepp
